import Mathlib

/-!
Verification of the incremental code-graph pipeline in `src-tauri/src`:
the file watcher (`file_manager/file_watcher.rs`), the file tracker
(`file_manager/file_tracker.rs`), the graph synchronizer
(`file_manager/neo4j.rs`) and the structural parser (`parser.rs`).

The Rust code is shallowly embedded: paths are strings, `HashMap`s are
functions to `Option` or association lists, filesystem reads and the
content-hash primitive are explicit parameters, `Result` is `Except` /
`Option`, and a call to `.unwrap()` on an `Err` is modelled as the
`none` (panic) outcome.
-/

/-! ## String helpers (executable stand-ins for `str::contains`, `Path::file_name`) -/

/-- Decides whether the first list is a leading segment of the second
(`<[_]>.isPrefixOf`, re-derived structurally so the kernel can evaluate it). -/
def charsPre : List Char → List Char → Bool
  | [], _ => true
  | _ :: _, [] => false
  | a :: as, b :: bs => a == b && charsPre as bs

/-- Decides whether `needle` occurs contiguously inside `hay`. -/
def charsSub (needle : List Char) : List Char → Bool
  | [] => charsPre needle []
  | c :: rest => charsPre needle (c :: rest) || charsSub needle rest

/-- Substring test on strings: models Rust `str::contains(pattern)`. -/
def strContains (hay pat : String) : Bool := charsSub pat.data hay.data

/-- Characters after the last `'/'` of the list; the whole list when no
`'/'` occurs.  Used to model `Path::file_name`. -/
def after_last_slash (l : List Char) : List Char :=
  (l.reverse.takeWhile (fun c => !(c == '/'))).reverse

/-- Model of `Path::file_name()` for ordinary relative/absolute paths:
the final path component, or `none` when the path ends in a separator. -/
def path_file_name (p : String) : Option (List Char) :=
  match after_last_slash p.data with
  | [] => none
  | s => some s

/-- Does the component start with `'.'`?  Models `file_name_str.starts_with('.')`
in `FileWatcherSystem::should_ignore`. -/
def hidden_component : List Char → Bool
  | c :: _ => c == '.'
  | [] => false

/-! ## File watcher (`file_manager/file_watcher.rs`) -/

abbrev FPath := String

/-- Default ignore patterns, `FileWatcherSystem::new`, lines 59-68. -/
def default_ignore_patterns : List String :=
  ["node_modules", ".git", "target", "dist", "build", "__pycache__", ".next", ".nuxt"]

/-- Model of `FileWatcherSystem::should_ignore` (lines 302-320): reject when
the path string contains any ignore pattern, otherwise reject when the
final component (`path.file_name()`) starts with `'.'`. -/
def should_ignore (path : String) (ignore_patterns : List String) : Bool :=
  if ignore_patterns.any (fun pat => strContains path pat) then true
  else
    match path_file_name path with
    | some file_name_str => hidden_component file_name_str
    | none => false

/-- Rename sub-kinds of `notify::event::RenameMode`. -/
inductive RenameMode
  | both
  | fromHalf
  | toHalf
  | anyMode
deriving DecidableEq

/-- Sub-kinds of `notify::event::ModifyKind`; `name` carries a rename mode. -/
inductive ModifyKind
  | data
  | metadata
  | name (mode : RenameMode)
  | anyKind
deriving DecidableEq

/-- Kinds of `notify::EventKind` relevant to `process_event`; the payloads of
`Create(_)` and `Remove(_)` are never inspected, so they are elided. -/
inductive EventKind
  | access
  | create
  | modify (k : ModifyKind)
  | remove
  | anyKind
deriving DecidableEq

/-- A `notify::Event`: a kind plus the affected paths. -/
structure Event where
  kind : EventKind
  paths : List FPath
deriving DecidableEq

/-- First arm of the `match event.kind` in `process_event` (line 200):
`EventKind::Create(_) | EventKind::Modify(_)`. -/
def arm_create_or_modify : EventKind → Bool
  | .create => true
  | .modify _ => true
  | _ => false

/-- Second arm (line 210): `EventKind::Remove(_)`. -/
def arm_remove : EventKind → Bool
  | .remove => true
  | _ => false

/-- Third arm (line 217): `EventKind::Modify(ModifyKind::Name(_))`. -/
def arm_modify_name : EventKind → Bool
  | .modify (.name _) => true
  | _ => false

/-- The pending-changes debounce table, `HashMap<PathBuf, Instant>`:
an association list with at most one entry per path. -/
abbrev PendingTable := List (FPath × Nat)

/-- `HashMap::insert`: replace any existing entry for the key. -/
def pending_insert (tbl : PendingTable) (p : FPath) (t : Nat) : PendingTable :=
  (p, t) :: tbl.filter (fun e => e.1 ≠ p)

/-- Effects of one `process_event` call: the debounce table afterwards, the
paths passed to `handle_file_removal` (which calls `NeoDB::remove_file` and
`FileTracker::remove_file`), and the path pairs passed to
`handle_file_rename` (which calls `NeoDB::update_file_path` and
`FileTracker::rename_file`). -/
structure StepResult where
  pending : PendingTable
  removals : List FPath
  renames : List (FPath × FPath)
deriving DecidableEq

/-- Model of `FileWatcherSystem::process_event` (lines 177-237).  The source
matches `event.kind` with the arms in this order:
`Create(_) | Modify(_)`, then `Remove(_)`, then `Modify(ModifyKind::Name(_))`,
then `_`.  Rust takes the first matching arm, so the embedding tries the arm
predicates in the same order.  `now` is the `Instant::now()` of the call and
`is_file` is `PathBuf::is_file` (whether the path exists on disk as a file). -/
def process_event (ev : Event) (now : Nat) (is_file : FPath → Bool)
    (ignore_patterns : List String) (pending : PendingTable) : StepResult :=
  let filtered_paths := ev.paths.filter (fun p => !(should_ignore p ignore_patterns))
  if filtered_paths.isEmpty then ⟨pending, [], []⟩
  else if arm_create_or_modify ev.kind then
    ⟨(filtered_paths.filter is_file).foldl (fun tbl p => pending_insert tbl p now) pending,
     [], []⟩
  else if arm_remove ev.kind then
    ⟨pending, filtered_paths, []⟩
  else if arm_modify_name ev.kind then
    match ev.paths with
    | from_path :: to_path :: _ =>
      if !(should_ignore to_path ignore_patterns) then ⟨pending, [], [(from_path, to_path)]⟩
      else ⟨pending, [], []⟩
    | _ => ⟨pending, [], []⟩
  else ⟨pending, [], []⟩

/-- `now.duration_since(*last_changed) >= Duration::from_millis(300)` with the
saturating `Nat` subtraction standing in for `Instant` arithmetic. -/
def debounce_elapsed (now last : Nat) : Bool := 300 ≤ now - last

/-- Drain phase of `FileWatcherSystem::process_debounced_files` (lines 246-260):
`changes.retain` keeps the entries younger than the debounce window and moves
every stable entry into `files_to_process`.  Returns the retained table and
the drained paths; the source then runs `FileTracker::update_file` on every
drained path and re-parses those that still exist as files. -/
def process_debounced_files (pending : PendingTable) (now : Nat) :
    PendingTable × List FPath :=
  (pending.filter (fun e => !(debounce_elapsed now e.2)),
   (pending.filter (fun e => debounce_elapsed now e.2)).map Prod.fst)

/-- Model of `FileWatcherSystem::start` (lines 141-156): the error of the
underlying `watcher.watch` call is mapped and then discarded (the statement
ends in `;` with no `?`), the liveness flag is set, and `Ok(())` is returned. -/
def FileWatcherSystem.start (os_watch : Except String Unit) (_is_watching : Bool) :
    Bool × Except String Unit :=
  let _ := os_watch.mapError (fun e => "Failed to watch directory: " ++ e)
  (true, Except.ok ())

/-- Model of `FileWatcherSystem::stop` (lines 159-174): the error of
`watcher.unwatch` is likewise discarded, the liveness flag is cleared, and
`Ok(())` is returned. -/
def FileWatcherSystem.stop (os_unwatch : Except String Unit) (_is_watching : Bool) :
    Bool × Except String Unit :=
  let _ := os_unwatch.mapError (fun e => "Failed to unwatch directory: " ++ e)
  (false, Except.ok ())

/-! ## File tracker (`file_manager/file_tracker.rs`) -/

/-- File contents as byte lists. -/
abbrev Content := List Nat

/-- The filesystem as seen by the tracker: `fs::metadata(path)` followed by
`.modified()` collapses to one optional timestamp, and `fs::read(path)` is an
optional byte list (`none` models the `Err` case of either call). -/
structure FSModel where
  metadata_modified : FPath → Option Nat
  read : FPath → Option Content

/-- The two maps owned by `FileTracker`: `file_hashes: HashMap<PathBuf, String>`
and `file_timestamps: HashMap<PathBuf, SystemTime>`. -/
structure FileTracker where
  file_hashes : FPath → Option String
  file_timestamps : FPath → Option Nat

/-- `FileTracker::new` (lines 20-28): both maps start empty. -/
def FileTracker.new : FileTracker :=
  ⟨fun _ => none, fun _ => none⟩

/-- `FileTracker::calculate_file_hash` (lines 125-129): read the file and hash
its bytes; fails when the read fails.  The hash primitive (`blake3::hash`
followed by hex encoding) is the explicit argument `hash`. -/
def calculate_file_hash (hash : Content → String) (fs : FSModel) (p : FPath) :
    Option String :=
  (fs.read p).map hash

/-- `FileTracker::update_file` (lines 53-76): on a readable metadata timestamp,
decide `was_updated` (newer than the stored timestamp, or not yet tracked);
if so and the hash computation succeeds, insert into both maps and return
`true`; on any failure or a stale timestamp return `false` unchanged. -/
def FileTracker.update_file (hash : Content → String) (fs : FSModel)
    (t : FileTracker) (p : FPath) : FileTracker × Bool :=
  match fs.metadata_modified p with
  | none => (t, false)
  | some modified_time =>
    let was_updated : Bool :=
      match t.file_timestamps p with
      | some old_time => decide (old_time < modified_time)
      | none => true
    if was_updated then
      match calculate_file_hash hash fs p with
      | some h =>
        (⟨fun q => if q = p then some h else t.file_hashes q,
          fun q => if q = p then some modified_time else t.file_timestamps q⟩, true)
      | none => (t, false)
    else (t, false)

/-- `FileTracker::remove_file` (lines 79-83): erase the path from both maps. -/
def FileTracker.remove_file (t : FileTracker) (p : FPath) : FileTracker :=
  ⟨fun q => if q = p then none else t.file_hashes q,
   fun q => if q = p then none else t.file_timestamps q⟩

/-- `FileTracker::rename_file` (lines 86-101): each map independently moves the
entry from `from_path` to `to_path` when `from_path` is present
(`HashMap::remove` followed by `insert`). -/
def FileTracker.rename_file (t : FileTracker) (from_path to_path : FPath) :
    FileTracker :=
  let hashes :=
    match t.file_hashes from_path with
    | some h =>
      fun q => if q = to_path then some h
               else if q = from_path then none else t.file_hashes q
    | none => t.file_hashes
  let timestamps :=
    match t.file_timestamps from_path with
    | some ts =>
      fun q => if q = to_path then some ts
               else if q = from_path then none else t.file_timestamps q
    | none => t.file_timestamps
  ⟨hashes, timestamps⟩

/-- `FileTracker::has_file_changed` (lines 109-117): when the path is
fingerprinted, recompute the content hash and compare (`none` models the
`Err` of an unreadable file); an untracked path counts as changed. -/
def FileTracker.has_file_changed (hash : Content → String) (fs : FSModel)
    (t : FileTracker) (p : FPath) : Option Bool :=
  match t.file_hashes p with
  | some old_hash =>
    (calculate_file_hash hash fs p).map (fun new_hash => old_hash != new_hash)
  | none => some true

/-- One mutating tracker call; `update` carries the filesystem state the call
observes. -/
inductive TrackerOp
  | update (fs : FSModel) (p : FPath)
  | remove (p : FPath)
  | rename (from_path to_path : FPath)

/-- Dispatch one `TrackerOp`. -/
def applyTrackerOp (hash : Content → String) (t : FileTracker) : TrackerOp → FileTracker
  | .update fs p => (t.update_file hash fs p).1
  | .remove p => t.remove_file p
  | .rename from_path to_path => t.rename_file from_path to_path

/-- Run a sequence of tracker calls from a starting state. -/
def applyTrackerOps (hash : Content → String) (t : FileTracker)
    (ops : List TrackerOp) : FileTracker :=
  ops.foldl (applyTrackerOp hash) t

/-- The key sets of the two tracker maps agree. -/
def KeysAligned (t : FileTracker) : Prop :=
  ∀ p, (t.file_hashes p).isSome = (t.file_timestamps p).isSome

/-! ## Graph synchronizer (`file_manager/neo4j.rs`) -/

/-- `models.rs` `EntityType`; `classEntity`, `interface`, `importEntity` stand
for the source's `Class`, `Interface`, `Import`. -/
inductive EntityType
  | project
  | directory
  | file
  | classEntity
  | interface
  | method
  | function
  | importEntity
deriving DecidableEq

/-- Label chosen by the `match entity.entity_type` in `NeoDB::ingest_entity`
(lines 139-148). -/
def entity_label : EntityType → String
  | .project => "Project"
  | .file => "File"
  | .directory => "Directory"
  | .function => "Function"
  | .method => "Method"
  | .classEntity => "Class"
  | .interface => "Interface"
  | .importEntity => "Import"

/-- The Cypher text built by the `format!` in `NeoDB::ingest_entity`
(lines 150-153), reproduced verbatim. -/
def ingest_entity_query (et : EntityType) : String :=
  "MERGE (n:" ++ entity_label et ++
    " \x7bpath: $path, start_line: $start_line, end_line: $end_line\x7d"

/-- Count occurrences of a character in a string. -/
def count_char (s : String) (c : Char) : Nat := s.data.count c

/-- A necessary well-formedness condition on Cypher text: as many `'('` as
`')'`. -/
def parens_balanced (s : String) : Bool :=
  count_char s '(' == count_char s ')'

/-- `models.rs` `LinkType`; `importLink` stands for the source's `Import`. -/
inductive LinkType
  | has
  | owns
  | uses
  | importLink
deriving DecidableEq

/-- Relationship-type string chosen by `NeoDB::batch_create_links`
(lines 489-494). -/
def link_rel_name : LinkType → String
  | .has => "HAS"
  | .owns => "OWNS"
  | .uses => "USES"
  | .importLink => "IMPORTS"

/-- A node of the property graph: internal id, label, and the `path` and
`name` properties. -/
structure GNode where
  nid : Nat
  label : String
  npath : String
  nname : String
deriving DecidableEq

/-- A directed labeled edge between two node ids. -/
structure GEdge where
  src : Nat
  rel : String
  tgt : Nat
deriving DecidableEq

/-- A property graph as stored by the Neo4j backend. -/
structure PropGraph where
  nodes : List GNode
  edges : List GEdge
deriving DecidableEq

/-- Denotation of the Cypher executed by `NeoDB::remove_file` (lines 277-296):
`MATCH (f:File lbrace path: $path rbrace) OPTIONAL MATCH
(f)-[:CONTAINS]->(entity) DETACH DELETE f, entity` — delete every `File` node
whose `path` property is `p`, delete every node reached from such a node by
an outgoing `CONTAINS` edge, and detach all edges incident to a deleted
node. -/
def NeoDB.remove_file (g : PropGraph) (p : String) : PropGraph :=
  let is_target : GNode → Bool := fun n => n.label == "File" && n.npath == p
  let deleted : Nat → Bool := fun i =>
    g.nodes.any (fun n => n.nid == i && is_target n) ||
    g.edges.any (fun e =>
      e.rel == "CONTAINS" && e.tgt == i &&
        g.nodes.any (fun f => f.nid == e.src && is_target f))
  ⟨g.nodes.filter (fun n => !(deleted n.nid)),
   g.edges.filter (fun e => !(deleted e.src) && !(deleted e.tgt))⟩

/-! ## Structural parser (`parser.rs`) -/

/-- `error.rs` `AppError`, with error payloads flattened to strings. -/
inductive AppErr
  | io (msg : String)
  | treeSitter (msg : String)
  | neo4j (msg : String)
  | parse (msg : String)
  | unsupportedLanguage (msg : String)
  | config (msg : String)
deriving DecidableEq

/-- Grammar selected by the `match extension` in `Parser::parse_single_file`
(lines 559-586). -/
inductive Grammar
  | typescript
  | tsx
  | javascript
  | rust
  | python
deriving DecidableEq

/-- Language-selection stage of `Parser::parse_single_file` (lines 540-595):
first the `is_typescript` guard returns `UnsupportedLanguage` for every
extension other than `"ts"`/`"tsx"`; only then does the `match extension`
choose a grammar (its `"js" | "jsx"`, `"rs"`, `"py"` arms sit after the
guard). -/
def parse_single_file_grammar (extension : String) : Except AppErr Grammar :=
  let is_typescript : Bool := extension == "ts" || extension == "tsx"
  if !is_typescript then
    Except.error (AppErr.unsupportedLanguage
      ("Only processing TypeScript files for now. Skipping file with extension: "
        ++ extension))
  else if extension == "ts" then Except.ok Grammar.typescript
  else if extension == "tsx" then Except.ok Grammar.tsx
  else if extension == "js" || extension == "jsx" then Except.ok Grammar.javascript
  else if extension == "rs" then Except.ok Grammar.rust
  else if extension == "py" then Except.ok Grammar.python
  else
    Except.error (AppErr.unsupportedLanguage
      ("Unsupported file extension: " ++ extension))

/-- `CodeLanguage` of `parser.rs`. -/
inductive CodeLanguage
  | rust
  | javascript
  | typescript
  | python
  | unknown
deriving DecidableEq

/-- `CodeLanguage::from_extension` (lines 27-37), on an already lowercased
extension. -/
def code_language_from_extension (ext : String) : CodeLanguage :=
  if ext == "rs" then .rust
  else if ext == "js" then .javascript
  else if ext == "jsx" then .javascript
  else if ext == "ts" then .typescript
  else if ext == "tsx" then .typescript
  else if ext == "py" then .python
  else .unknown

/-- One entry produced by the directory walk, as the per-file loop bodies see
it: the path, its extension (`none` when `path.extension()` is `None`), and
the outcome the parser produces for the file (abstract entity ids on
success). -/
structure ScanEntry where
  epath : FPath
  extension : Option String
  parse_result : Except AppErr (List Nat)

/-- Per-file body of the loop in `Parser::fparse_and_ingest_directory`
(lines 363-419): a missing extension skips the file; an unknown language
skips the file; a parse error is printed and emitted as a `parse_error`
event and the loop continues; only a successful parse increments
`file_count`. -/
def fparse_file_step (file_count : Nat) (e : ScanEntry) : Nat :=
  match e.extension with
  | none => file_count
  | some ext =>
    if code_language_from_extension ext == CodeLanguage.unknown then file_count
    else
      match e.parse_result with
      | Except.ok _ => file_count + 1
      | Except.error _ => file_count

/-- The loop of `Parser::fparse_and_ingest_directory` over its entries,
returning `Ok(file_count)` (line 423). -/
def fparse_and_ingest_directory (entries : List ScanEntry) : Except AppErr Nat :=
  Except.ok (entries.foldl fparse_file_step 0)

/-- File branch of the scan loop in `Parser::parse_and_ingest_directory`
(lines 197-235).  Note two properties of the source: the extension examined
and the path parsed are `dir_path` — the scan root — not `curr_node`; and the
parse result is consumed with `.unwrap()`, so an `Err` panics.  `none` models
the panic; `some` carries the accumulated `nodes` ids. -/
def parse_scan_file_branch (root_extension : Option String)
    (root_parse : Except AppErr (List Nat)) (nodes : List Nat) :
    Option (List Nat) :=
  match root_extension with
  | none => some nodes
  | some _ =>
    match root_parse with
    | Except.ok breakdown => some (nodes ++ breakdown)
    | Except.error _ => none

/-- Iterate `parse_scan_file_branch` over `file_entries` successive file
entries of the scan queue, propagating a panic. -/
def parse_and_ingest_files (root_extension : Option String)
    (root_parse : Except AppErr (List Nat)) :
    List Nat → Nat → Option (List Nat)
  | nodes, 0 => some nodes
  | nodes, file_entries + 1 =>
    match parse_scan_file_branch root_extension root_parse nodes with
    | some nodes2 => parse_and_ingest_files root_extension root_parse nodes2 file_entries
    | none => none

/-! ## Theorems -/

/-- C10: `FileWatcherSystem::start` and `FileWatcherSystem::stop` return `Ok`
for every input state — the error of the underlying OS watch/unwatch call is
discarded, so a failed subscription or unsubscription is never observable by
the caller, and `stop` (which only flips the liveness flag and attempts
unwatch) can be called repeatedly with the same `Ok` outcome. -/
theorem c10_start_stop_always_ok :
    (∀ (os_watch : Except String Unit) (flag : Bool),
      (FileWatcherSystem.start os_watch flag).2 = Except.ok () ∧
      (FileWatcherSystem.start os_watch flag).1 = true) ∧
    (∀ (os_unwatch : Except String Unit) (flag : Bool),
      (FileWatcherSystem.stop os_unwatch flag).2 = Except.ok () ∧
      (FileWatcherSystem.stop os_unwatch flag).1 = false) ∧
    (∀ (r1 r2 : Except String Unit) (flag : Bool),
      FileWatcherSystem.stop r2 (FileWatcherSystem.stop r1 flag).1 =
        FileWatcherSystem.stop r1 flag) :=
  ⟨fun _ _ => ⟨rfl, rfl⟩, fun _ _ => ⟨rfl, rfl⟩, fun _ _ _ => rfl⟩

/-- C8: `parse_single_file` returns an `UnsupportedLanguage` error for every
extension other than `"ts"` and `"tsx"` — including `"js"`, `"jsx"`, `"py"`
and `"rs"`, whose grammar-selection arms sit after the `is_typescript` guard
in the same function — so the live watch path only ever parses
TypeScript/TSX files. -/
theorem c8_non_typescript_rejected (ext : String)
    (h1 : ext ≠ "ts") (h2 : ext ≠ "tsx") :
    parse_single_file_grammar ext =
      Except.error (AppErr.unsupportedLanguage
        ("Only processing TypeScript files for now. Skipping file with extension: "
          ++ ext)) := by
  have e1 : (ext == "ts") = false := by simp [h1]
  have e2 : (ext == "tsx") = false := by simp [h2]
  simp [parse_single_file_grammar, e1, e2]

/-- Witness for C8 at the concrete extension `"js"`, which has its own
grammar arm later in the function yet is still rejected. -/
theorem c8_non_typescript_rejected_witness :
    parse_single_file_grammar "js" =
      Except.error (AppErr.unsupportedLanguage
        ("Only processing TypeScript files for now. Skipping file with extension: "
          ++ "js")) :=
  c8_non_typescript_rejected "js" (by decide) (by decide)

/-- C3 (code evaluated at the failing input): for every entity kind, the
Cypher text that `NeoDB::ingest_entity` sends is not a well-formed `MERGE`
statement — its parentheses are unbalanced (the node pattern is never
closed) — and it contains neither an `ON CREATE SET` nor an `ON MATCH SET`
clause; moreover the `MERGE` key includes `start_line`/`end_line`, not the
path alone. -/
theorem c3_ingest_entity_query_malformed (et : EntityType) :
    parens_balanced (ingest_entity_query et) = false ∧
    strContains (ingest_entity_query et) "ON CREATE SET" = false ∧
    strContains (ingest_entity_query et) "ON MATCH SET" = false ∧
    strContains (ingest_entity_query et) "start_line: $start_line" = true := by
  cases et <;> exact ⟨by decide, by decide, by decide, by decide⟩

/-- Witness for C3 at a concrete entity kind. -/
theorem c3_ingest_entity_query_malformed_witness :
    parens_balanced (ingest_entity_query EntityType.file) = false ∧
    strContains (ingest_entity_query EntityType.file) "ON CREATE SET" = false ∧
    strContains (ingest_entity_query EntityType.file) "ON MATCH SET" = false ∧
    strContains (ingest_entity_query EntityType.file) "start_line: $start_line" = true :=
  c3_ingest_entity_query_malformed EntityType.file

/-- The graph the ingestion code builds for the delete scenario:
`process_file_structure` / `batch_create_links` attach a file's declarations
to the file node with edges of type `link_rel_name LinkType.has = "HAS"`
(`neo4j.rs` lines 489-494 and 583-589); node 1 is `util.ts` with its
declaration node 2, node 3 is `index.ts` with its declaration node 4, and
node 3 imports node 1. -/
def c2_graph : PropGraph :=
  ⟨[⟨1, "File", "util.ts", "util.ts"⟩,
    ⟨2, "Function", "util.ts", "helper"⟩,
    ⟨3, "File", "index.ts", "index.ts"⟩,
    ⟨4, "Function", "index.ts", "foo"⟩],
   [⟨1, link_rel_name LinkType.has, 2⟩,
    ⟨3, link_rel_name LinkType.has, 4⟩,
    ⟨3, "IMPORTS", 1⟩]⟩

/-- C2 (code evaluated at the failing input): `NeoDB::remove_file` deletes
only the `File` node and nodes reached by `CONTAINS` edges, but the
ingestion path links declarations with `HAS` edges, so after removing
`util.ts` its `Function` declaration node survives as an orphan — contrary
to the claim that every node the file structurally contained is gone.
`index.ts`'s nodes and edges do remain. -/
theorem c2_contained_declarations_survive :
    (NeoDB.remove_file c2_graph "util.ts").nodes.any
        (fun n => n.label == "File" && n.npath == "util.ts") = false ∧
    (NeoDB.remove_file c2_graph "util.ts").nodes.any (fun n => n.nid == 2) = true ∧
    (NeoDB.remove_file c2_graph "util.ts").edges.any (fun e => e.tgt == 2) = false ∧
    (NeoDB.remove_file c2_graph "util.ts").nodes.any (fun n => n.nid == 4) = true ∧
    (NeoDB.remove_file c2_graph "util.ts").edges.any
        (fun e => e.src == 3 && e.tgt == 4) = true := by
  decide

/-- Utility lemma: `process_event` never reaches the rename arm — the source's
`EventKind::Modify(ModifyKind::Name(_))` arm is shadowed by the earlier
`EventKind::Create(_) | EventKind::Modify(_)` arm, so no event ever produces
a rename effect. -/
theorem process_event_renames_nil (ev : Event) (now : Nat) (is_file : FPath → Bool)
    (pats : List String) (pending : PendingTable) :
    (process_event ev now is_file pats pending).renames = [] := by
  simp only [process_event]
  split
  · rfl
  · split
    · rfl
    · split
      · rfl
      · split
        · rename_i h1 h2 h3
          exfalso
          cases hk : ev.kind <;> rw [hk] at h1 h3 <;>
            simp [arm_create_or_modify, arm_modify_name] at h1 h3
        · rfl

/-- The filesystem after the rename `a.ts -> b.ts`: only the new path exists
as a file. -/
def c1_is_file : FPath → Bool := fun p => p == "b.ts"

/-- C1: the claim fails on the code.  A two-path rename event
(`Modify(ModifyKind::Name(RenameMode.both))` with old and new paths) is
captured by the first match arm of `process_event` — `Create(_) | Modify(_)`
precedes `Modify(ModifyKind::Name(_))`, and Rust takes the first matching
arm — so the on-disk path is inserted into the pending-changes debounce
table and `handle_file_rename` (hence `NeoDB::update_file_path` and
`FileTracker::rename_file`) is never invoked, for this or any other
event. -/
theorem c1_rename_pair_is_debounced_not_renamed :
    (∀ (ev : Event) (now : Nat) (is_file : FPath → Bool) (pats : List String)
        (pending : PendingTable),
      (process_event ev now is_file pats pending).renames = []) ∧
    process_event ⟨EventKind.modify (ModifyKind.name RenameMode.both), ["a.ts", "b.ts"]⟩
        7 c1_is_file default_ignore_patterns [] =
      ⟨[("b.ts", 7)], [], []⟩ :=
  ⟨process_event_renames_nil, by decide⟩

/-- A Modify event for `a.ts` observed at time 0: the path enters the
pending-changes table. -/
def c6_step1 : StepResult :=
  process_event ⟨EventKind.modify ModifyKind.data, ["a.ts"]⟩ 0 (fun _ => true)
    default_ignore_patterns []

/-- A Remove event for the same path processed at time 1, before the debounce
window has elapsed. -/
def c6_step2 : StepResult :=
  process_event ⟨EventKind.remove, ["a.ts"]⟩ 1 (fun _ => false)
    default_ignore_patterns c6_step1.pending

/-- C6 counterexample: after a Modify of `a.ts` at time 0 and a Remove of
`a.ts` processed at time 1, the pending debounce-table entry for `a.ts`
survives the Remove unchanged, and the sweep at time 300 still forwards
`a.ts` for processing — the Create/Modify observed before the Remove is
processed after it. -/
theorem c6_pending_entry_survives_remove :
    c6_step1.pending = [("a.ts", 0)] ∧
    c6_step2.removals = ["a.ts"] ∧
    c6_step2.pending = [("a.ts", 0)] ∧
    (process_debounced_files c6_step2.pending 300).2 = ["a.ts"] := by
  decide

/-- C6 amended: a Remove event for `p` is indeed processed synchronously and
bypasses the debounce table, but it does not purge `p`'s pending entry: any
entry observed before the Remove survives it and is forwarded for processing
by the first sweep whose time exceeds the debounce window (the forwarded
processing then finds the file gone: `update_file` fails its metadata read
and the parse step is guarded by `path.is_file()`). -/
theorem c6_remove_bypasses_but_leaves_pending (p : FPath) (t0 now : Nat)
    (pending : PendingTable) (is_file : FPath → Bool) (pats : List String)
    (hmem : (p, t0) ∈ pending) (hni : should_ignore p pats = false)
    (hst : debounce_elapsed now t0 = true) :
    process_event ⟨EventKind.remove, [p]⟩ now is_file pats pending =
      ⟨pending, [p], []⟩ ∧
    p ∈ (process_debounced_files pending now).2 := by
  constructor
  · simp [process_event, hni, arm_create_or_modify, arm_remove]
  · exact List.mem_map.mpr ⟨(p, t0), List.mem_filter.mpr ⟨hmem, hst⟩, rfl⟩

/-- Witness for C6 at a concrete table and sweep time. -/
theorem c6_remove_bypasses_but_leaves_pending_witness :
    process_event ⟨EventKind.remove, ["a.ts"]⟩ 301 (fun _ => false)
        default_ignore_patterns [("a.ts", 0)] =
      ⟨[("a.ts", 0)], ["a.ts"], []⟩ ∧
    "a.ts" ∈ (process_debounced_files [("a.ts", 0)] 301).2 :=
  c6_remove_bypasses_but_leaves_pending "a.ts" 0 301 [("a.ts", 0)] (fun _ => false)
    default_ignore_patterns (by decide) (by decide) (by decide)

/-- C4: for a file whose fingerprint records the hash of content `c`, the
change check answers by comparing content hashes alone — the tracker's
stored timestamp and the file's current metadata are never consulted, both
being universally quantified here — so identical bytes yield `false`
(regardless of any modification-time change), and differing bytes yield
`true` as soon as their hashes differ (no collision). -/
theorem c4_change_check_is_content_hash (hash : Content → String) (fs : FSModel)
    (t : FileTracker) (p : FPath) (c cur : Content)
    (hfp : t.file_hashes p = some (hash c)) (hread : fs.read p = some cur) :
    (cur = c → FileTracker.has_file_changed hash fs t p = some false) ∧
    (cur ≠ c → hash cur ≠ hash c →
      FileTracker.has_file_changed hash fs t p = some true) := by
  constructor
  · rintro rfl
    simp [FileTracker.has_file_changed, calculate_file_hash, hfp, hread]
  · intro _ hne
    simp [FileTracker.has_file_changed, calculate_file_hash, hfp, hread,
      bne_iff_ne]
    exact fun h => absurd h.symm hne

/-- Hash used in the C4 witness, injective on the two contents involved. -/
def c4_hash : Content → String := fun c => if c = [1] then "h1" else "h2"

/-- Tracker that fingerprinted content `[1]` (at timestamp 0) for every path. -/
def c4_tracker : FileTracker :=
  ⟨fun _ => some (c4_hash [1]), fun _ => some 0⟩

/-- Filesystem where the file was touched (metadata timestamp 5) but its
content is still `[1]`. -/
def c4_fs_same : FSModel := ⟨fun _ => some 5, fun _ => some [1]⟩

/-- Filesystem where the file's content changed to `[2]`. -/
def c4_fs_diff : FSModel := ⟨fun _ => some 5, fun _ => some [2]⟩

/-- Witness for C4: a touched-but-identical file reports unchanged, a
one-byte edit reports changed. -/
theorem c4_change_check_is_content_hash_witness :
    FileTracker.has_file_changed c4_hash c4_fs_same c4_tracker "a.ts" = some false ∧
    FileTracker.has_file_changed c4_hash c4_fs_diff c4_tracker "a.ts" = some true :=
  ⟨(c4_change_check_is_content_hash c4_hash c4_fs_same c4_tracker "a.ts" [1] [1]
      rfl rfl).1 rfl,
   (c4_change_check_is_content_hash c4_hash c4_fs_diff c4_tracker "a.ts" [1] [2]
      rfl rfl).2 (by decide) (by decide)⟩

/-- `takeWhile` walks past a block of elements that all satisfy the
predicate. -/
theorem takeWhile_all_append (p : Char → Bool) (a b : List Char)
    (h : ∀ x ∈ a, p x = true) :
    (a ++ b).takeWhile p = a ++ b.takeWhile p := by
  induction a with
  | nil => simp
  | cons c cs ih =>
    have hc : p c = true := h c (List.mem_cons_self c cs)
    simp [List.takeWhile, hc]
    exact ih fun x hx => h x (List.mem_cons_of_mem c hx)

/-- The final component of `dir ++ "/" ++ file` is `file` when `file` itself
contains no separator. -/
theorem after_last_slash_append (dirc filec : List Char) (h : '/' ∉ filec) :
    after_last_slash (dirc ++ '/' :: filec) = filec := by
  unfold after_last_slash
  have hall : ∀ x ∈ filec.reverse, (!(x == '/')) = true := by
    intro x hx
    have hm : x ∈ filec := List.mem_reverse.mp hx
    have hne : x ≠ '/' := fun he => h (he ▸ hm)
    simp [hne]
  rw [List.reverse_append, List.reverse_cons, List.append_assoc,
    takeWhile_all_append _ _ _ hall]
  simp [List.takeWhile]

/-- C7 counterexample: `a/.hidden/b.ts` matches no configured pattern and its
final component is not hidden, so `should_ignore` accepts it — the claim
says the hidden intermediate directory `.hidden` causes rejection. -/
theorem c7_hidden_directory_not_rejected :
    should_ignore "a/.hidden/b.ts" default_ignore_patterns = false := by
  decide

/-- C7 amended: when no ignore pattern matches the path string, the filter's
hidden check looks only at the final path component — a path `dir/file`
(with `file` separator-free and nonempty) is rejected exactly when `file`
itself starts with `'.'`, no matter how many hidden segments `dir`
contains. -/
theorem c7_hidden_check_is_final_component_only (p : String)
    (dirc filec : List Char) (pats : List String)
    (hsplit : p.data = dirc ++ '/' :: filec)
    (hnoslash : '/' ∉ filec) (hne : filec ≠ [])
    (hnopat : pats.any (fun pat => strContains p pat) = false) :
    should_ignore p pats = hidden_component filec := by
  unfold should_ignore path_file_name
  rw [hnopat, hsplit, after_last_slash_append dirc filec hnoslash]
  cases filec with
  | nil => exact absurd rfl hne
  | cons c cs => rfl

/-- Witness for C7 at the path of the counterexample. -/
theorem c7_hidden_check_is_final_component_only_witness :
    should_ignore "a/.hidden/b.ts" default_ignore_patterns =
      hidden_component "b.ts".data :=
  c7_hidden_check_is_final_component_only "a/.hidden/b.ts" "a/.hidden".data
    "b.ts".data default_ignore_patterns (by decide) (by decide) (by decide)
    (by decide)

/-- Does the `fparse_and_ingest_directory` loop count this entry?  True
exactly when the file has an extension of a known language and its parse
succeeded. -/
def fparse_entry_counted (e : ScanEntry) : Bool :=
  match e.extension with
  | none => false
  | some ext =>
    !(code_language_from_extension ext == CodeLanguage.unknown) &&
      e.parse_result.isOk

/-- One loop iteration adds one exactly when the entry is counted. -/
theorem fparse_file_step_eq (acc : Nat) (e : ScanEntry) :
    fparse_file_step acc e = acc + (if fparse_entry_counted e then 1 else 0) := by
  obtain ⟨ep, ext, pr⟩ := e
  cases ext with
  | none => rfl
  | some x =>
    cases pr with
    | ok v =>
      by_cases hx : code_language_from_extension x == CodeLanguage.unknown <;>
        simp [fparse_file_step, fparse_entry_counted, hx, Except.isOk, Except.toBool]
    | error err =>
      by_cases hx : code_language_from_extension x == CodeLanguage.unknown <;>
        simp [fparse_file_step, fparse_entry_counted, hx, Except.isOk, Except.toBool]

/-- The loop's fold counts the counted entries. -/
theorem fparse_foldl_count (entries : List ScanEntry) (acc : Nat) :
    entries.foldl fparse_file_step acc =
      acc + entries.countP fparse_entry_counted := by
  induction entries generalizing acc with
  | nil => simp
  | cons e rest ih =>
    rw [List.foldl_cons, ih, fparse_file_step_eq, List.countP_cons]
    omega

/-- C5: the two bulk-scan routines differ.  `parse_and_ingest_directory`
consumes each parse result with `.unwrap()`, so one failing parse panics out
of the whole scan (here: a scan root whose name carries an extension, a
failing parse, and two file entries — the result is the panic outcome
`none`, and the second file is never reached).  `fparse_and_ingest_directory`
really does skip failed files: for every entry list it returns `Ok` with the
count of the entries whose parse succeeded, parse errors merely not
counting. -/
theorem c5_unwrap_panics_fparse_continues :
    parse_and_ingest_files (some "ts") (Except.error (AppErr.io "Is a directory"))
        [] 2 = none ∧
    (∀ entries : List ScanEntry,
      fparse_and_ingest_directory entries =
        Except.ok (entries.countP fparse_entry_counted)) := by
  constructor
  · rfl
  · intro entries
    unfold fparse_and_ingest_directory
    rw [fparse_foldl_count, Nat.zero_add]

/-- `update_file` keeps the two maps' key sets equal: it inserts into both
together (the success branch) or touches neither. -/
theorem update_file_keys_aligned (hash : Content → String) (fs : FSModel)
    (t : FileTracker) (p : FPath) (h : KeysAligned t) :
    KeysAligned (t.update_file hash fs p).1 := by
  intro q
  simp only [FileTracker.update_file]
  cases hm : fs.metadata_modified p with
  | none => exact h q
  | some mt =>
    cases hts : t.file_timestamps p with
    | none =>
      cases hh : calculate_file_hash hash fs p with
      | none => simpa using h q
      | some hv =>
        by_cases hq : q = p <;> simp [hq, h q]
    | some old_time =>
      by_cases hlt : old_time < mt
      · cases hh : calculate_file_hash hash fs p with
        | none => simpa [hlt] using h q
        | some hv => by_cases hq : q = p <;> simp [hlt, hq, h q]
      · simpa [hlt] using h q

/-- `remove_file` erases the path from both maps. -/
theorem remove_file_keys_aligned (t : FileTracker) (p : FPath)
    (h : KeysAligned t) : KeysAligned (t.remove_file p) := by
  intro q
  by_cases hq : q = p <;> simp [FileTracker.remove_file, hq, h q]

/-- `rename_file` moves the entry in both maps or in neither: although the
source guards the two moves independently, the alignment of the incoming
state makes both guards agree. -/
theorem rename_file_keys_aligned (t : FileTracker) (fp tp : FPath)
    (h : KeysAligned t) : KeysAligned (t.rename_file fp tp) := by
  have hfp := h fp
  simp only [FileTracker.rename_file]
  cases hh : t.file_hashes fp with
  | none =>
    cases ht : t.file_timestamps fp with
    | none => exact h
    | some ts => rw [hh, ht] at hfp; simp at hfp
  | some hv =>
    cases ht : t.file_timestamps fp with
    | none => rw [hh, ht] at hfp; simp at hfp
    | some ts =>
      intro q
      by_cases h1 : q = tp
      · simp [h1]
      · by_cases h2 : q = fp
        · have h3 : ¬fp = tp := by rw [← h2]; exact h1
          simp [h1, h2, h3]
        · simp [h1, h2, h q]

/-- Every single tracker call preserves key alignment. -/
theorem applyTrackerOp_keys_aligned (hash : Content → String) (op : TrackerOp)
    (t : FileTracker) (h : KeysAligned t) :
    KeysAligned (applyTrackerOp hash t op) := by
  cases op with
  | update fs p => exact update_file_keys_aligned hash fs t p h
  | remove p => exact remove_file_keys_aligned t p h
  | rename fp tp => exact rename_file_keys_aligned t fp tp h

/-- C9: `FileTracker` maintains the invariant that the key sets of its
file-hash map and its file-timestamp map are equal — both start empty at
construction, and each of `update_file`, `remove_file` and `rename_file`
inserts into, removes from, or moves entries in the two maps together, so
after any sequence of these operations a path has a stored hash exactly when
it has a stored timestamp. -/
theorem c9_tracker_key_sets_equal (hash : Content → String)
    (ops : List TrackerOp) (p : FPath) :
    ((applyTrackerOps hash FileTracker.new ops).file_hashes p).isSome =
      ((applyTrackerOps hash FileTracker.new ops).file_timestamps p).isSome := by
  have main : ∀ (l : List TrackerOp) (t : FileTracker), KeysAligned t →
      KeysAligned (applyTrackerOps hash t l) := by
    intro l
    induction l with
    | nil => exact fun t h => h
    | cons op rest ih =>
      intro t h
      simp only [applyTrackerOps, List.foldl_cons]
      exact ih (applyTrackerOp hash t op) (applyTrackerOp_keys_aligned hash op t h)
  exact main ops FileTracker.new (fun _ => rfl) p
